import Mathlib

/-!
Verification of the rare_disease_multiomics_reporter pipeline.

This file gives a shallow embedding, in Lean, of the core logic of the
repository (src/rdmr/variant_scoring.py and src/rdmr/llm_report.py) and
proves properties of that embedding.

Conventions of the embedding:
  - Python floats are modelled as rationals.  All allele-frequency
    thresholds in the scorer are decimal literals whose parsed doubles
    compare exactly like the corresponding rationals on the values the
    program handles, so the rational model is faithful for the comparisons
    performed by the code.
  - pandas DataFrames are modelled either as typed row lists or, for the
    loader and serializer, as a header plus rows of string cells.
  - Multi-line strings built by the report generator are modelled at line
    granularity: a Python string s that is assembled from pieces joined at
    explicit newline characters is represented by the list of its lines
    (the result of splitting s on the newline character).
-/

namespace Rdmr

/-! ### Variant scoring (src/rdmr/variant_scoring.py)

The source defines a Literal type of the ten recognized consequence
strings, a loader over a tab-separated table, a per-row rule based score,
a scoring-and-sorting function and a serializer.
-/

/-- The ten consequence strings of the Consequence Literal alias in
variant_scoring.py; a valid row carries one of these. -/
def consequence_values : List String :=
  ["stop_gained", "frameshift_variant", "splice_acceptor_variant",
   "splice_donor_variant", "missense_variant", "inframe_deletion",
   "inframe_insertion", "synonymous_variant", "intron_variant", "other"]

/-- The high_impact set of rule_based_score_row. -/
def high_impact : List String :=
  ["stop_gained", "frameshift_variant", "splice_acceptor_variant",
   "splice_donor_variant"]

/-- The medium_impact set of rule_based_score_row. -/
def medium_impact : List String :=
  ["missense_variant", "inframe_deletion", "inframe_insertion"]

/-- Model of the Python str.lower() call applied to the consequence cell:
ASCII lowercasing, mapped over the characters.  The recognized consequence
strings are all ASCII, where this agrees with Python. -/
def str_lower (s : String) : String := String.mk (s.data.map Char.toLower)

/-- Embedding of rule_based_score_row.  The Python function lowercases the
consequence string, starts from score 0.0, adds the consequence
contribution (membership in high_impact, then medium_impact, else 0), then
adds the allele-frequency contribution through a chain of strict
comparisons.  The row's consequence and af cells are passed as the already
extracted string and rational value. -/
def rule_based_score_row (consequence : String) (af : ℚ) : ℚ :=
  let c := str_lower consequence
  let score : ℚ := 0
  let score :=
    if c ∈ high_impact then score + 3
    else if c ∈ medium_impact then score + 2
    else score + 0
  let score :=
    if af < 1/1000 then score + 3
    else if af < 1/100 then score + 2
    else if af < 1/20 then score + 1
    else score
  score

/-- The consequence contribution as the code computes it (on the lowercased
string). -/
def consequence_points (consequence : String) : ℚ :=
  if str_lower consequence ∈ high_impact then 3
  else if str_lower consequence ∈ medium_impact then 2
  else 0

/-- Modelled from the spec's wording of rule 1 (section 4.2): the
consequence contribution as a function of the consequence string itself,
with no lowercasing.  On valid rows it agrees with consequence_points. -/
def spec_consequence_contribution (consequence : String) : ℚ :=
  if consequence ∈ high_impact then 3
  else if consequence ∈ medium_impact then 2
  else 0

/-- The allele-frequency contribution of rule_based_score_row: strict
half-open buckets evaluated in order. -/
def af_contribution (af : ℚ) : ℚ :=
  if af < 1/1000 then 3
  else if af < 1/100 then 2
  else if af < 1/20 then 1
  else 0

theorem rule_based_score_row_decomp (c : String) (af : ℚ) :
    rule_based_score_row c af = consequence_points c + af_contribution af := by
  unfold rule_based_score_row consequence_points af_contribution
  simp only [zero_add, add_zero]
  split_ifs <;> ring

theorem str_lower_fixes_valid : ∀ c ∈ consequence_values, str_lower c = c := by
  decide

theorem consequence_points_eq_spec (c : String) (hc : c ∈ consequence_values) :
    consequence_points c = spec_consequence_contribution c := by
  unfold consequence_points spec_consequence_contribution
  rw [str_lower_fixes_valid c hc]

end Rdmr

/-- C1: for every valid row (consequence one of the ten recognized strings,
allele frequency in the unit interval), the score of rule_based_score_row
is exactly the consequence contribution (3 for high impact, 2 for
missense/inframe, 0 otherwise) plus the allele-frequency contribution
(3 below 1/1000, 2 below 1/100, 1 below 1/20, else 0), and therefore lies
in the set of integers 0 to 6. -/
theorem c1_score_is_sum_of_contributions (c : String) (af : ℚ)
    (hc : c ∈ Rdmr.consequence_values) (_haf : 0 ≤ af ∧ af ≤ 1) :
    Rdmr.rule_based_score_row c af =
      Rdmr.spec_consequence_contribution c + Rdmr.af_contribution af ∧
    Rdmr.rule_based_score_row c af ∈ ([0, 1, 2, 3, 4, 5, 6] : List ℚ) := by
  have hd := Rdmr.rule_based_score_row_decomp c af
  have he := Rdmr.consequence_points_eq_spec c hc
  constructor
  · rw [hd, he]
  · rw [hd]
    unfold Rdmr.consequence_points Rdmr.af_contribution
    split_ifs <;> norm_num

/-- Witness for C1 at the spec's own scenario row: a missense_variant with
allele frequency 1/10000 scores 2 + 3 = 5. -/
theorem c1_score_is_sum_of_contributions_witness :
    ("missense_variant" ∈ Rdmr.consequence_values ∧
      (0 : ℚ) ≤ 1/10000 ∧ (1/10000 : ℚ) ≤ 1) ∧
    (Rdmr.rule_based_score_row "missense_variant" (1/10000) =
      Rdmr.spec_consequence_contribution "missense_variant" +
        Rdmr.af_contribution (1/10000) ∧
    Rdmr.rule_based_score_row "missense_variant" (1/10000) ∈
      ([0, 1, 2, 3, 4, 5, 6] : List ℚ)) :=
  ⟨⟨by decide, by norm_num⟩,
    c1_score_is_sum_of_contributions "missense_variant" (1/10000)
      (by decide) ⟨by norm_num, by norm_num⟩⟩

/-- C8: at the exact bucket boundaries the strict comparisons push the row
into the next higher-frequency bucket: allele frequency exactly 1/1000
contributes 2, exactly 1/100 contributes 1, exactly 1/20 contributes 0,
on top of the consequence contribution. -/
theorem c8_boundary_af_next_bucket (c : String) :
    Rdmr.rule_based_score_row c (1/1000) = Rdmr.consequence_points c + 2 ∧
    Rdmr.rule_based_score_row c (1/100) = Rdmr.consequence_points c + 1 ∧
    Rdmr.rule_based_score_row c (1/20) = Rdmr.consequence_points c + 0 := by
  refine ⟨?_, ?_, ?_⟩ <;>
    · rw [Rdmr.rule_based_score_row_decomp]
      unfold Rdmr.af_contribution
      norm_num

namespace Rdmr

/-! ### A character-level model of tab-separated serialization

load_variants_table reads a TSV file through pandas read_csv and
save_scored_variants writes one through DataFrame.to_csv.  The model
represents a file as a string, a line as the text between newline
separators, and a row as the cell texts between tab separators.  Cell
values are modelled by the text pandas writes for them; the blank-line
skipping of read_csv (its default) is part of the loader model.  CSV
quoting is not modelled, so serialization theorems assume cells free of
tab and newline characters, which is the regime in which to_csv emits
unquoted cells.
-/

/-- Split a character list at every occurrence of the separator. -/
def splitOnChar (sep : Char) : List Char → List (List Char)
  | [] => [[]]
  | c :: cs =>
    if c = sep then [] :: splitOnChar sep cs
    else
      match splitOnChar sep cs with
      | [] => [[c]]
      | f :: rest => (c :: f) :: rest

theorem splitOnChar_ne_nil (sep : Char) (l : List Char) :
    splitOnChar sep l ≠ [] := by
  cases l with
  | nil => simp [splitOnChar]
  | cons c cs =>
    unfold splitOnChar
    split_ifs
    · simp
    · cases h : splitOnChar sep cs <;> simp

theorem splitOnChar_of_not_mem (sep : Char) (l : List Char) (h : sep ∉ l) :
    splitOnChar sep l = [l] := by
  induction l with
  | nil => rfl
  | cons c cs ih =>
    simp only [List.mem_cons, not_or] at h
    unfold splitOnChar
    rw [if_neg (fun hc => h.1 hc.symm), ih h.2]

theorem splitOnChar_append_sep (sep : Char) (x rest : List Char)
    (h : sep ∉ x) :
    splitOnChar sep (x ++ sep :: rest) = x :: splitOnChar sep rest := by
  induction x with
  | nil => simp [splitOnChar]
  | cons c cs ih =>
    simp only [List.mem_cons, not_or] at h
    have hne : ¬c = sep := fun hc => h.1 hc.symm
    simp only [List.cons_append, splitOnChar, List.append_eq]
    rw [if_neg hne, ih h.2]

theorem splitOnChar_concat_sep (sep : Char) (l : List Char) :
    splitOnChar sep (l ++ [sep]) = splitOnChar sep l ++ [[]] := by
  induction l with
  | nil => simp [splitOnChar]
  | cons c cs ih =>
    simp only [List.cons_append]
    unfold splitOnChar
    split_ifs with hc
    · rw [ih]
      rfl
    · obtain ⟨f, r, hfr⟩ : ∃ f r, splitOnChar sep cs = f :: r := by
        cases h : splitOnChar sep cs with
        | nil => exact absurd h (splitOnChar_ne_nil sep cs)
        | cons f r => exact ⟨f, r, rfl⟩
      rw [ih, hfr]
      simp

/-- Join pieces with a single separator character between them, the way
the report and table writers assemble text. -/
def joinSepL (sep : Char) : List (List Char) → List Char
  | [] => []
  | [x] => x
  | x :: y :: ys => x ++ sep :: joinSepL sep (y :: ys)

theorem splitOnChar_joinSepL (sep : Char) (ls : List (List Char))
    (hne : ls ≠ []) (h : ∀ l ∈ ls, sep ∉ l) :
    splitOnChar sep (joinSepL sep ls) = ls := by
  induction ls with
  | nil => exact absurd rfl hne
  | cons x xs ih =>
    cases xs with
    | nil =>
      exact splitOnChar_of_not_mem sep x (h x (List.mem_cons_self x []))
    | cons y ys =>
      have hx : sep ∉ x := h x (by simp)
      show splitOnChar sep (x ++ sep :: joinSepL sep (y :: ys)) = _
      rw [splitOnChar_append_sep sep x _ hx,
        ih (by simp) (fun l hl => h l (List.mem_cons_of_mem x hl))]

theorem mem_joinSepL (sep : Char) (ls : List (List Char)) (c : Char)
    (hc : c ∈ joinSepL sep ls) : c = sep ∨ ∃ l ∈ ls, c ∈ l := by
  induction ls with
  | nil => simp [joinSepL] at hc
  | cons x xs ih =>
    cases xs with
    | nil =>
      exact Or.inr ⟨x, by simp, hc⟩
    | cons y ys =>
      simp only [joinSepL, List.mem_append, List.mem_cons] at hc
      rcases hc with hx | hsep | hrest
      · exact Or.inr ⟨x, by simp, hx⟩
      · exact Or.inl hsep
      · rcases ih hrest with h | ⟨l, hl, hcl⟩
        · exact Or.inl h
        · exact Or.inr ⟨l, List.mem_cons_of_mem x hl, hcl⟩

/-- String-level join with a separator character. -/
def joinSep (sep : Char) (xs : List String) : String :=
  String.mk (joinSepL sep (xs.map String.data))

/-- String-level split on a separator character. -/
def splitSep (sep : Char) (s : String) : List String :=
  (splitOnChar sep s.data).map String.mk

theorem splitSep_joinSep (sep : Char) (xs : List String) (hne : xs ≠ [])
    (h : ∀ x ∈ xs, sep ∉ x.data) :
    splitSep sep (joinSep sep xs) = xs := by
  unfold splitSep joinSep
  rw [show (String.mk (joinSepL sep (xs.map String.data))).data
      = joinSepL sep (xs.map String.data) from rfl]
  rw [splitOnChar_joinSepL sep _ (by simpa using hne)
    (by intro l hl
        obtain ⟨x, hx, rfl⟩ := List.mem_map.mp hl
        exact h x hx)]
  have hid : (String.mk ∘ String.data) = id := funext fun s => rfl
  rw [List.map_map, hid, List.map_id]

end Rdmr

namespace Rdmr

/-! ### Loader and serializer (variant_scoring.py) -/

/-- In-memory model of the pandas DataFrame that load_variants_table
returns: the column names in order and the rows as lists of cell texts in
column order. -/
structure Table where
  header : List String
  rows : List (List String)
deriving DecidableEq, Repr

/-- The failure modes of the loader: pandas raises on an input with no
data at all, and load_variants_table raises a ValueError (the spec's
SchemaError) carrying the set of missing required columns. -/
inductive LoadError
  | emptyData : LoadError
  | missingColumns : List String → LoadError
deriving DecidableEq, Repr

/-- The required_cols set of load_variants_table. -/
def required_cols : List String :=
  ["chrom", "pos", "ref", "alt", "gene", "consequence", "af"]

/-- Model of pandas read_csv with a tab separator: split the file into
newline-separated lines, skip blank lines (the read_csv default), take the
first line as the header and the rest as data rows, splitting each on
tabs.  A file with no lines at all is the EmptyDataError case. -/
def parse_tsv (file : String) : Option Table :=
  match (splitSep '\n' file).filter (fun l => decide (l ≠ "")) with
  | [] => none
  | h :: rest => some ⟨splitSep '\t' h, rest.map (splitSep '\t')⟩

/-- Embedding of load_variants_table: read the table, compute the set of
required columns absent from the header, and fail listing exactly those
columns when the set is non-empty.  The missing set is kept in the order
of required_cols. -/
def load_variants_table (file : String) : Except LoadError Table :=
  match parse_tsv file with
  | none => Except.error LoadError.emptyData
  | some df =>
    let missing := required_cols.filter (fun c => decide (c ∉ df.header))
    if missing = [] then Except.ok df
    else Except.error (LoadError.missingColumns missing)

/-- Embedding of save_scored_variants: DataFrame.to_csv with a tab
separator and index=False writes the header line, then one line per row,
each line the tab-joined cells, with a trailing newline. -/
def save_scored_variants (df : Table) : String :=
  joinSep '\n' (joinSep '\t' df.header :: df.rows.map (joinSep '\t')) ++ "\n"

end Rdmr

/-- C4: whenever the parsed input table lacks at least one of the seven
required columns, load_variants_table fails with the missing-columns error
whose payload holds exactly the absent required column names; in
particular a table without a gene column yields an error mentioning gene. -/
theorem c4_missing_columns_error (file : String) (df : Rdmr.Table)
    (hp : Rdmr.parse_tsv file = some df)
    (hmiss : ∃ c ∈ Rdmr.required_cols, c ∉ df.header) :
    ∃ m, Rdmr.load_variants_table file =
        Except.error (Rdmr.LoadError.missingColumns m) ∧
      (∀ c, c ∈ m ↔ (c ∈ Rdmr.required_cols ∧ c ∉ df.header)) ∧
      ("gene" ∉ df.header → "gene" ∈ m) := by
  obtain ⟨c₀, hc₀, hnc₀⟩ := hmiss
  refine ⟨Rdmr.required_cols.filter (fun c => decide (c ∉ df.header)), ?_, ?_, ?_⟩
  · unfold Rdmr.load_variants_table
    rw [hp]
    have hne : Rdmr.required_cols.filter (fun c => decide (c ∉ df.header)) ≠ [] := by
      intro hnil
      have : c₀ ∈ Rdmr.required_cols.filter (fun c => decide (c ∉ df.header)) :=
        List.mem_filter.mpr ⟨hc₀, by simpa using hnc₀⟩
      rw [hnil] at this
      exact absurd this (List.not_mem_nil c₀)
    simp only [if_neg hne]
  · intro c
    simp [List.mem_filter]
  · intro hg
    exact List.mem_filter.mpr ⟨by decide, by simpa using hg⟩

/-- A concrete variants file whose header lacks the gene column. -/
def geneless_file : String :=
  "chrom\tpos\tref\talt\tconsequence\taf\n1\t123456\tA\tG\tmissense_variant\t0.0001\n"

/-- The parsed form of geneless_file. -/
def geneless_table : Rdmr.Table :=
  ⟨["chrom", "pos", "ref", "alt", "consequence", "af"],
    [["1", "123456", "A", "G", "missense_variant", "0.0001"]]⟩

/-- Witness for C4: a concrete six-column file whose header lacks gene. -/
theorem c4_missing_columns_error_witness :
    (Rdmr.parse_tsv geneless_file = some geneless_table ∧
      (∃ c ∈ Rdmr.required_cols, c ∉ geneless_table.header)) ∧
    ∃ m, Rdmr.load_variants_table geneless_file =
        Except.error (Rdmr.LoadError.missingColumns m) ∧
      (∀ c, c ∈ m ↔ (c ∈ Rdmr.required_cols ∧ c ∉ geneless_table.header)) ∧
      ("gene" ∉ geneless_table.header → "gene" ∈ m) :=
  ⟨⟨by decide, ⟨"gene", by decide, by decide⟩⟩,
    c4_missing_columns_error geneless_file geneless_table (by decide)
      ⟨"gene", by decide, by decide⟩⟩

namespace Rdmr

theorem joinSep_data (sep : Char) (xs : List String) :
    (joinSep sep xs).data = joinSepL sep (xs.map String.data) := rfl

theorem joinSep_ne_empty_of_two_le (sep : Char) (xs : List String)
    (h : 2 ≤ xs.length) : joinSep sep xs ≠ "" := by
  match xs, h with
  | a :: b :: t, _ =>
    intro heq
    have hd : (joinSep sep (a :: b :: t)).data = [] := by rw [heq]
    rw [joinSep_data] at hd
    simp [joinSepL] at hd

theorem not_mem_joinSep_data (sep other : Char) (cells : List String)
    (hne : other ≠ sep) (h : ∀ cell ∈ cells, other ∉ cell.data) :
    other ∉ (joinSep sep cells).data := by
  rw [joinSep_data]
  intro hmem
  rcases mem_joinSepL sep _ other hmem with heq | ⟨l, hl, hcl⟩
  · exact hne heq
  · obtain ⟨cell, hcell, rfl⟩ := List.mem_map.mp hl
    exact h cell hcell hcl

end Rdmr

/-- C9: saving a table with save_scored_variants and loading the written
text back with load_variants_table returns the very same table, so the
chrom, pos, ref, alt, gene, consequence, af and score cells of every row
survive the round trip in the same order.  The hypotheses are the regime
of the claim: a scored table (all required columns present, at least two
columns, rows matching the header width) whose cell texts carry no tab or
newline, which is where to_csv writes them unquoted. -/
theorem c9_save_load_roundtrip (df : Rdmr.Table)
    (hlen : 2 ≤ df.header.length)
    (hwf : ∀ r ∈ df.rows, r.length = df.header.length)
    (hreq : ∀ c ∈ Rdmr.required_cols, c ∈ df.header)
    (hhead : ∀ cell ∈ df.header, '\t' ∉ cell.data ∧ '\n' ∉ cell.data)
    (hrows : ∀ r ∈ df.rows, ∀ cell ∈ r, '\t' ∉ cell.data ∧ '\n' ∉ cell.data) :
    Rdmr.load_variants_table (Rdmr.save_scored_variants df) = Except.ok df := by
  set lines := Rdmr.joinSep '\t' df.header :: df.rows.map (Rdmr.joinSep '\t')
    with hlines
  have hsplit : Rdmr.splitSep '\n' (Rdmr.save_scored_variants df)
      = lines ++ [""] := by
    unfold Rdmr.save_scored_variants Rdmr.splitSep
    rw [String.data_append]
    rw [show ("\n" : String).data = ['\n'] from rfl]
    rw [Rdmr.joinSep_data, Rdmr.splitOnChar_concat_sep]
    rw [Rdmr.splitOnChar_joinSepL '\n' _ (by simp)
      (by
        intro l hl
        obtain ⟨line, hline, rfl⟩ := List.mem_map.mp hl
        have : '\n' ∉ line.data := by
          rcases List.mem_cons.mp hline with rfl | hmem
          · exact Rdmr.not_mem_joinSep_data '\t' '\n' df.header (by decide)
              (fun cell hc => (hhead cell hc).2)
          · obtain ⟨r, hr, rfl⟩ := List.mem_map.mp hmem
            exact Rdmr.not_mem_joinSep_data '\t' '\n' r (by decide)
              (fun cell hc => (hrows r hr cell hc).2)
        exact this)]
    rw [List.map_append, List.map_map]
    have hid : (String.mk ∘ String.data) = id := funext fun s => rfl
    rw [hid, List.map_id]
    rfl
  have hfilter : (lines ++ [""]).filter (fun l => decide (l ≠ "")) = lines := by
    rw [List.filter_append]
    have h1 : ([""] : List String).filter (fun l => decide (l ≠ "")) = [] := by decide
    have h2 : lines.filter (fun l => decide (l ≠ "")) = lines := by
      rw [List.filter_eq_self]
      intro line hline
      rcases List.mem_cons.mp hline with rfl | hmem
      · simpa using Rdmr.joinSep_ne_empty_of_two_le '\t' df.header hlen
      · obtain ⟨r, hr, rfl⟩ := List.mem_map.mp hmem
        simpa using Rdmr.joinSep_ne_empty_of_two_le '\t' r
          (by rw [hwf r hr]; exact hlen)
    rw [h1, h2, List.append_nil]
  have hheader_rt : Rdmr.splitSep '\t' (Rdmr.joinSep '\t' df.header) = df.header :=
    Rdmr.splitSep_joinSep '\t' df.header
      (by intro h0; rw [h0] at hlen; simp at hlen)
      (fun cell hc => (hhead cell hc).1)
  have hrows_rt : (df.rows.map (Rdmr.joinSep '\t')).map (Rdmr.splitSep '\t')
      = df.rows := by
    rw [List.map_map]
    have : ∀ r ∈ df.rows, (Rdmr.splitSep '\t' ∘ Rdmr.joinSep '\t') r = id r := by
      intro r hr
      show Rdmr.splitSep '\t' (Rdmr.joinSep '\t' r) = r
      refine Rdmr.splitSep_joinSep '\t' r ?_ (fun cell hc => (hrows r hr cell hc).1)
      intro h0
      have hlen0 := hwf r hr
      rw [h0] at hlen0
      simp at hlen0
      omega
    rw [List.map_congr_left this, List.map_id]
  have hparse : Rdmr.parse_tsv (Rdmr.save_scored_variants df) = some df := by
    unfold Rdmr.parse_tsv
    rw [hsplit, hfilter, hlines]
    show some (Rdmr.Table.mk (Rdmr.splitSep '\t' (Rdmr.joinSep '\t' df.header))
      ((df.rows.map (Rdmr.joinSep '\t')).map (Rdmr.splitSep '\t'))) = some df
    rw [hheader_rt, hrows_rt]
  have hm : Rdmr.required_cols.filter (fun c => decide (c ∉ df.header)) = [] := by
    rw [List.filter_eq_nil_iff]
    intro c hc
    simpa using hreq c hc
  unfold Rdmr.load_variants_table
  rw [hparse]
  show (if Rdmr.required_cols.filter (fun c => decide (c ∉ df.header)) = []
      then Except.ok df
      else Except.error (Rdmr.LoadError.missingColumns
        (Rdmr.required_cols.filter (fun c => decide (c ∉ df.header))))) = Except.ok df
  rw [if_pos hm]

/-- A concrete one-row scored-variant table, in the shape score_variants
hands to save_scored_variants. -/
def scored_sample : Rdmr.Table :=
  ⟨["chrom", "pos", "ref", "alt", "gene", "consequence", "af", "score"],
    [["1", "123456", "A", "G", "BRCA1", "missense_variant", "0.0001", "5.0"]]⟩

/-- Witness for C9: the concrete scored table round-trips through the
serializer and loader. -/
theorem c9_save_load_roundtrip_witness :
    (2 ≤ scored_sample.header.length ∧
      (∀ r ∈ scored_sample.rows, r.length = scored_sample.header.length) ∧
      (∀ c ∈ Rdmr.required_cols, c ∈ scored_sample.header) ∧
      (∀ cell ∈ scored_sample.header, '\t' ∉ cell.data ∧ '\n' ∉ cell.data) ∧
      (∀ r ∈ scored_sample.rows, ∀ cell ∈ r,
        '\t' ∉ cell.data ∧ '\n' ∉ cell.data)) ∧
    Rdmr.load_variants_table (Rdmr.save_scored_variants scored_sample) =
      Except.ok scored_sample :=
  ⟨⟨by decide, by decide, by decide, by decide, by decide⟩,
    c9_save_load_roundtrip scored_sample (by decide) (by decide) (by decide)
      (by decide) (by decide)⟩

namespace Rdmr

/-! ### Report synthesis (src/rdmr/llm_report.py)

generate_report reads the scored-variant table (and optionally an
expression table), formats the two digests, and either wraps a model
response or renders a deterministic fallback.  The embedding passes the
parsed tables directly (the file reads are plumbing), models the presence
of the OPENAI_API_KEY credential as a boolean, and models the outcome of
the _call_llm call as either the stripped response text or the text of the
raised exception.  Reports, which the code assembles by joining pieces at
explicit newline characters, are modelled as their list of lines.
-/

/-- One row of the scored-variant table as _format_variant_summary reads
it; every cell is modelled by the text it renders as when interpolated
into the summary line. -/
structure SVRow where
  gene : String
  chrom : String
  pos : String
  ref : String
  alt : String
  consequence : String
  af : String
  score : String
deriving DecidableEq, Repr

/-- The per-row text of the variant summary, without its leading dash:
gene chrom:pos ref>alt (consequence, af=af, score=score). -/
def svRowBody (r : SVRow) : String :=
  r.gene ++ " " ++ r.chrom ++ ":" ++ r.pos ++ " " ++ r.ref ++ ">" ++ r.alt ++
    " (" ++ r.consequence ++ ", af=" ++ r.af ++ ", score=" ++ r.score ++ ")"

/-- A formatted variant row line of _format_variant_summary. -/
def svRowLine (r : SVRow) : String := "- " ++ svRowBody r

/-- Embedding of _format_variant_summary, producing the lines of the
digest: the sentinel for an absent or empty table, else a heading line
followed by the first five rows. -/
def format_variant_summary_lines (variants : List SVRow) : List String :=
  if variants = [] then ["No candidate variants were prioritized."]
  else "Top candidate variants (sorted by score):" ::
    (variants.take 5).map svRowLine

/-- A Python cell value as the expression summarizer sees it: text or a
number. -/
inductive PyVal
  | str : String → PyVal
  | num : ℚ → PyVal
deriving DecidableEq, Repr

/-- A row of the expression table: its integer index (pandas row.name) and
its cells keyed by column name in column order. -/
structure ExprRow where
  name : Nat
  fields : List (String × PyVal)
deriving DecidableEq, Repr

/-- The expression DataFrame: column names plus rows. -/
structure ExprTable where
  columns : List String
  rows : List ExprRow
deriving DecidableEq, Repr

/-- Text of a numeric cell in report output.  llm_report.py formats these
through Python float formatting (:.2f and :.2e); no claim depends on the
digits, and the model renders the rational canonically. -/
def numText (q : ℚ) : String := toString q

/-- The text a cell value renders as inside an f-string. -/
def pyValText : PyVal → String
  | PyVal.str s => s
  | PyVal.num q => numText q

/-- The text a cell value renders as inside str(row.to_dict()). -/
def pyValRepr : PyVal → String
  | PyVal.str s => "'" ++ s ++ "'"
  | PyVal.num q => numText q

/-- Cell access row[col] / row.get(col). -/
def rowGet (r : ExprRow) (col : String) : Option PyVal :=
  List.lookup col r.fields

/-- Numeric value of a cell; on the DESeq2 branch the column is present
and numeric, so the default is never exercised there. -/
def cellNum (v : Option PyVal) : ℚ :=
  match v with
  | some (PyVal.num q) => q
  | _ => 0

/-- Stable insertion into a key-sorted list. -/
def insertByKey (key : α → ℚ) (a : α) : List α → List α
  | [] => [a]
  | b :: bs => if key a ≤ key b then a :: b :: bs else b :: insertByKey key a bs

/-- Stable ascending sort by key. -/
def stableSortAsc (key : α → ℚ) : List α → List α
  | [] => []
  | a :: as => insertByKey key a (stableSortAsc key as)

/-- Model of DataFrame.sort_values on one numeric column.  pandas sorts
descending by reversing the rows, arg-sorting ascending, and reversing
the result; the model mirrors that shape around a stable ascending sort.
The kind pandas uses by default, numpy quicksort, guarantees stability
only in its small-array insertion-sort regime; no theorem below about
this function depends on the order of equal keys. -/
def pandas_sort_values (key : α → ℚ) (ascending : Bool) (l : List α) : List α :=
  if ascending then stableSortAsc key l
  else (stableSortAsc key l.reverse).reverse

/-- The body of a DESeq2-branch row line, without its leading dash. -/
def exprRowBody (r : ExprRow) : String :=
  (match rowGet r "gene" with
    | some v => pyValText v
    | none => toString r.name) ++
  ": log2FC=" ++ numText (cellNum (rowGet r "log2FoldChange")) ++
  ", padj=" ++ numText (cellNum (rowGet r "padj"))

/-- A DESeq2-branch row line of _format_expression_summary. -/
def exprRowLine (r : ExprRow) : String := "- " ++ exprRowBody r

/-- Comma-and-space joining of rendered dict entries. -/
def commaJoin : List String → String
  | [] => ""
  | [x] => x
  | x :: y :: ys => x ++ ", " ++ commaJoin (y :: ys)

/-- The body of a toy-branch row line str(row.to_dict()), without its
opening brace. -/
def toyRowBody (r : ExprRow) : String :=
  commaJoin (r.fields.map (fun p => "'" ++ p.1 ++ "': " ++ pyValRepr p.2)) ++
    "\x7d"

/-- A toy-branch row line of _format_expression_summary. -/
def toyRowLine (r : ExprRow) : String := "\x7b" ++ toyRowBody r

/-- Embedding of _format_expression_summary as its list of lines: the
sentinel for an absent or empty table; the labeled top-3 up- and
down-regulated lists when the DESeq2 columns log2FoldChange and padj are
both present; otherwise the toy per-row digest of the first three rows. -/
def format_expression_summary_lines : Option ExprTable → List String
  | none => ["No differential expression results were available."]
  | some t =>
    if t.rows = [] then ["No differential expression results were available."]
    else if "log2FoldChange" ∈ t.columns ∧ "padj" ∈ t.columns then
      let key := fun r => cellNum (rowGet r "log2FoldChange")
      let up := (pandas_sort_values key false t.rows).take 3
      let down := (pandas_sort_values key true t.rows).take 3
      ["Differential expression summary (DESeq2-style):", "",
        "Top up-regulated genes:"] ++
      up.map exprRowLine ++
      ["", "Top down-regulated genes:"] ++
      down.map exprRowLine
    else
      "Expression summary (toy):" :: (t.rows.take 3).map toyRowLine

/-- The string _format_expression_summary returns: its lines joined by
newlines (the sentinel branches return the single line itself). -/
def format_expression_summary (expr : Option ExprTable) : String :=
  joinSep '\n' (format_expression_summary_lines expr)

/-- Embedding of generate_report as the lines of the report it writes.
Arguments: whether OPENAI_API_KEY is set, the outcome of _call_llm (the
stripped response text, or the text of the exception it raised), the
phenotypes argument, the parsed scored-variant table and the optional
parsed expression table.  The three branches mirror the source: the
model-success wrap, the exception handler's fallback, and the
no-credential template. -/
def generate_report (api_key_present : Bool)
    (llm_outcome : Except String String) (phenotypes : String)
    (variants : List SVRow) (expr : Option ExprTable) : List String :=
  let variant_summary := format_variant_summary_lines variants
  let expression_summary := format_expression_summary_lines expr
  if api_key_present then
    match llm_outcome with
    | Except.ok report_body =>
        ["# Rare Disease Multi-Omics Report (LLM-generated)", "", ""] ++
        splitSep '\n' report_body ++
        ["",
         "> Note: This report was generated using a large language model. The underlying data are synthetic and this output is for demonstration only."]
    | Except.error e =>
        ["# Rare Disease Multi-Omics Report (LLM fallback)", "", ""] ++
        splitSep '\n' ("LLM call failed with error: " ++ e) ++
        ["", "Below is a deterministic summary of the available data.", "",
         "## Phenotypes"] ++
        splitSep '\n' phenotypes ++
        ["", "## Variant summary"] ++ variant_summary ++
        ["", "## Expression summary"] ++ expression_summary ++ [""]
  else
    ["# Rare Disease Multi-Omics Report (Template)", "", "## Phenotypes"] ++
    splitSep '\n' phenotypes ++
    ["", "## Variant summary"] ++ variant_summary ++
    ["", "## Expression summary"] ++ expression_summary ++
    ["", "## Notes",
     "- This report was generated **without** an LLM (no OPENAI_API_KEY configured).",
     "- All results are synthetic and for demonstration only.", ""]

/-- A markdown section header line: text starting with two hashes and a
space, the shape of the four fixed section headers of the template. -/
def isHeaderLine (l : String) : Bool :=
  match l.data with
  | a :: b :: c :: _ => a == '#' && b == '#' && c == ' '
  | _ => false

end Rdmr

namespace Rdmr

theorem dash_not_header (s : String) : isHeaderLine ("- " ++ s) = false := by
  have hd : ("- " ++ s).data = '-' :: ' ' :: s.data := by
    rw [String.data_append]
    rfl
  unfold isHeaderLine
  rw [hd]
  cases s.data <;> rfl

theorem brace_not_header (s : String) : isHeaderLine ("\x7b" ++ s) = false := by
  have hd : ("\x7b" ++ s).data = '\x7b' :: s.data := by
    rw [String.data_append]
    rfl
  unfold isHeaderLine
  rw [hd]
  match s.data with
  | [] => rfl
  | [_] => rfl
  | _ :: _ :: _ => rfl

theorem format_variant_summary_lines_no_header (v : List SVRow) :
    ∀ l ∈ format_variant_summary_lines v, isHeaderLine l = false := by
  intro l hl
  unfold format_variant_summary_lines at hl
  split_ifs at hl
  · simp only [List.mem_singleton] at hl
    rw [hl]
    rfl
  · rcases List.mem_cons.mp hl with rfl | hmem
    · rfl
    · obtain ⟨r, _, rfl⟩ := List.mem_map.mp hmem
      exact dash_not_header (svRowBody r)

theorem format_expression_summary_lines_no_header (expr : Option ExprTable) :
    ∀ l ∈ format_expression_summary_lines expr, isHeaderLine l = false := by
  intro l hl
  cases expr with
  | none =>
    simp only [format_expression_summary_lines, List.mem_singleton] at hl
    rw [hl]; rfl
  | some t =>
    simp only [format_expression_summary_lines] at hl
    split_ifs at hl
    · simp only [List.mem_singleton] at hl
      rw [hl]; rfl
    · simp only [List.mem_append, List.mem_cons, List.mem_singleton,
        List.not_mem_nil, or_false] at hl
      rcases hl with ((h | hup) | h2) | hdown
      · rcases h with rfl | rfl | rfl <;> rfl
      · obtain ⟨r, _, rfl⟩ := List.mem_map.mp hup
        exact dash_not_header (exprRowBody r)
      · rcases h2 with rfl | rfl <;> rfl
      · obtain ⟨r, _, rfl⟩ := List.mem_map.mp hdown
        exact dash_not_header (exprRowBody r)
    · rcases List.mem_cons.mp hl with rfl | hmem
      · rfl
      · obtain ⟨r, _, rfl⟩ := List.mem_map.mp hmem
        exact brace_not_header (toyRowBody r)

end Rdmr

/-- A concrete scored-variant row as the report generator reads it. -/
def sample_svrow : Rdmr.SVRow :=
  ⟨"BRCA1", "1", "123456", "A", "G", "missense_variant", "0.0001", "5.0"⟩

/-- C5: with no credential configured, generate_report takes the template
branch for every input and every model outcome: the report starts with the
Template provenance header, its section header lines are exactly the four
fixed ones (Phenotypes, Variant summary, Expression summary, Notes), and
the output does not depend on the model outcome at all.  The hypothesis
restricts the free-text phenotypes argument to text that does not itself
contain a markdown section header line. -/
theorem c5_template_report_sections (llm llm' : Except String String)
    (phenotypes : String) (variants : List Rdmr.SVRow)
    (expr : Option Rdmr.ExprTable)
    (hp : ∀ l ∈ Rdmr.splitSep '\n' phenotypes, Rdmr.isHeaderLine l = false) :
    (Rdmr.generate_report false llm phenotypes variants expr).filter
        Rdmr.isHeaderLine =
      ["## Phenotypes", "## Variant summary", "## Expression summary",
        "## Notes"] ∧
    (Rdmr.generate_report false llm phenotypes variants expr).head? =
      some "# Rare Disease Multi-Omics Report (Template)" ∧
    Rdmr.generate_report false llm phenotypes variants expr =
      Rdmr.generate_report false llm' phenotypes variants expr := by
  have hrep : Rdmr.generate_report false llm phenotypes variants expr =
      ["# Rare Disease Multi-Omics Report (Template)", "", "## Phenotypes"] ++
      Rdmr.splitSep '\n' phenotypes ++
      ["", "## Variant summary"] ++
      Rdmr.format_variant_summary_lines variants ++
      ["", "## Expression summary"] ++
      Rdmr.format_expression_summary_lines expr ++
      ["", "## Notes",
       "- This report was generated **without** an LLM (no OPENAI_API_KEY configured).",
       "- All results are synthetic and for demonstration only.", ""] := rfl
  have hP : (Rdmr.splitSep '\n' phenotypes).filter Rdmr.isHeaderLine = [] :=
    List.filter_eq_nil_iff.mpr (fun l hl => by simp [hp l hl])
  have hV : (Rdmr.format_variant_summary_lines variants).filter
      Rdmr.isHeaderLine = [] :=
    List.filter_eq_nil_iff.mpr
      (fun l hl => by simp [Rdmr.format_variant_summary_lines_no_header variants l hl])
  have hE : (Rdmr.format_expression_summary_lines expr).filter
      Rdmr.isHeaderLine = [] :=
    List.filter_eq_nil_iff.mpr
      (fun l hl => by simp [Rdmr.format_expression_summary_lines_no_header expr l hl])
  refine ⟨?_, ?_, rfl⟩
  · rw [hrep]
    simp only [List.filter_append, hP, hV, hE, List.append_nil, List.nil_append]
    decide
  · rw [hrep]
    rfl

/-- Witness for C5 at a concrete run: one scored row, no expression table,
a plain phenotypes text, and two different model outcomes. -/
theorem c5_template_report_sections_witness :
    (∀ l ∈ Rdmr.splitSep '\n' "short stature, developmental delay",
      Rdmr.isHeaderLine l = false) ∧
    ((Rdmr.generate_report false (Except.ok "ignored")
        "short stature, developmental delay" [sample_svrow] none).filter
        Rdmr.isHeaderLine =
      ["## Phenotypes", "## Variant summary", "## Expression summary",
        "## Notes"] ∧
    (Rdmr.generate_report false (Except.ok "ignored")
        "short stature, developmental delay" [sample_svrow] none).head? =
      some "# Rare Disease Multi-Omics Report (Template)" ∧
    Rdmr.generate_report false (Except.ok "ignored")
        "short stature, developmental delay" [sample_svrow] none =
      Rdmr.generate_report false (Except.error "down")
        "short stature, developmental delay" [sample_svrow] none) :=
  ⟨by decide,
    c5_template_report_sections (Except.ok "ignored") (Except.error "down")
      "short stature, developmental delay" [sample_svrow] none (by decide)⟩

/-- C6 counterexample: on an absent expression table the summarizer does
return a fixed sentinel, but it is the string
No differential expression results were available., not the string
no expression evidence available that the claim quotes. -/
theorem c6_sentinel_text_counterexample :
    Rdmr.format_expression_summary none =
      "No differential expression results were available." ∧
    Rdmr.format_expression_summary none ≠ "no expression evidence available" := by
  constructor
  · rfl
  · decide

/-- C6 as amended: for every absent or empty expression table the
summarizer returns the fixed sentinel string the code actually carries,
No differential expression results were available.; the embedded function
is total, the Python code on this path only tests emptiness and returns,
so it never raises. -/
theorem c6_absent_or_empty_sentinel (expr : Option Rdmr.ExprTable)
    (h : expr = none ∨ ∃ t, expr = some t ∧ t.rows = []) :
    Rdmr.format_expression_summary expr =
      "No differential expression results were available." := by
  rcases h with rfl | ⟨t, rfl, ht⟩
  · rfl
  · have hlines : Rdmr.format_expression_summary_lines (some t) =
        ["No differential expression results were available."] := by
      simp only [Rdmr.format_expression_summary_lines]
      rw [if_pos ht]
    unfold Rdmr.format_expression_summary
    rw [hlines]
    rfl

/-- Witness for C6 at the absent table. -/
theorem c6_absent_or_empty_sentinel_witness :
    ((none : Option Rdmr.ExprTable) = none ∨
      ∃ t, (none : Option Rdmr.ExprTable) = some t ∧ t.rows = []) ∧
    Rdmr.format_expression_summary none =
      "No differential expression results were available." :=
  ⟨Or.inl rfl, c6_absent_or_empty_sentinel none (Or.inl rfl)⟩

/-- A one-row expression table using the snake_case naming convention the
spec says must be accepted. -/
def snake_case_table : Rdmr.ExprTable :=
  ⟨["gene", "log2_fold_change", "adjusted_p_value"],
    [⟨0, [("gene", Rdmr.PyVal.str "GENE1"),
      ("log2_fold_change", Rdmr.PyVal.num 2),
      ("adjusted_p_value", Rdmr.PyVal.num (1/100))]⟩]⟩

/-- C7 counterexample: a non-empty table carrying the fold-change and
adjusted-p-value columns under the snake_case convention is not
recognized: the summarizer takes the toy branch and emits neither labeled
list. -/
theorem c7_snake_case_not_recognized :
    "Top up-regulated genes:" ∉
        Rdmr.format_expression_summary_lines (some snake_case_table) ∧
    "Top down-regulated genes:" ∉
        Rdmr.format_expression_summary_lines (some snake_case_table) ∧
    (Rdmr.format_expression_summary_lines (some snake_case_table)).head? =
      some "Expression summary (toy):" := by
  decide

/-- C7 as amended: the summarizer recognizes exactly the DESeq2 naming
convention: for every non-empty table whose columns include log2FoldChange
and padj it produces the two labeled gene lists under the DESeq2 heading;
tables using only log2_fold_change and adjusted_p_value fall through to
the plain per-row digest. -/
theorem c7_deseq2_columns_recognized (t : Rdmr.ExprTable)
    (h1 : t.rows ≠ []) (h2 : "log2FoldChange" ∈ t.columns)
    (h3 : "padj" ∈ t.columns) :
    "Top up-regulated genes:" ∈
        Rdmr.format_expression_summary_lines (some t) ∧
    "Top down-regulated genes:" ∈
        Rdmr.format_expression_summary_lines (some t) ∧
    (Rdmr.format_expression_summary_lines (some t)).head? =
      some "Differential expression summary (DESeq2-style):" := by
  simp only [Rdmr.format_expression_summary_lines]
  rw [if_neg h1, if_pos (show _ ∧ _ from ⟨h2, h3⟩)]
  refine ⟨by simp, by simp, rfl⟩

/-- A one-row expression table using the DESeq2 naming convention. -/
def deseq2_table : Rdmr.ExprTable :=
  ⟨["gene", "log2FoldChange", "padj"],
    [⟨0, [("gene", Rdmr.PyVal.str "GENE1"),
      ("log2FoldChange", Rdmr.PyVal.num 2),
      ("padj", Rdmr.PyVal.num (1/100))]⟩]⟩

/-- Witness for the amended C7 at a concrete DESeq2-style table. -/
theorem c7_deseq2_columns_recognized_witness :
    (deseq2_table.rows ≠ [] ∧ "log2FoldChange" ∈ deseq2_table.columns ∧
      "padj" ∈ deseq2_table.columns) ∧
    ("Top up-regulated genes:" ∈
        Rdmr.format_expression_summary_lines (some deseq2_table) ∧
    "Top down-regulated genes:" ∈
        Rdmr.format_expression_summary_lines (some deseq2_table) ∧
    (Rdmr.format_expression_summary_lines (some deseq2_table)).head? =
      some "Differential expression summary (DESeq2-style):") :=
  ⟨⟨by decide, by decide, by decide⟩,
    c7_deseq2_columns_recognized deseq2_table (by decide) (by decide) (by decide)⟩

/-- C3 counterexample: a model call that returns empty content raises no
exception in _call_llm (the stripped empty string is returned), so
generate_report takes the success branch: the run produces the
LLM-generated report, not the fallback, and the variant digest and the
fallback section headers are absent from it.  This refutes the claim that
every failure mode, empty content included, degrades to a fallback report
carrying the digests. -/
theorem c3_empty_content_not_fallback :
    (Rdmr.generate_report true (Except.ok "") "short stature" [sample_svrow]
        none).head? =
      some "# Rare Disease Multi-Omics Report (LLM-generated)" ∧
    "Top candidate variants (sorted by score):" ∉
      Rdmr.generate_report true (Except.ok "") "short stature" [sample_svrow]
        none ∧
    "## Variant summary" ∉
      Rdmr.generate_report true (Except.ok "") "short stature" [sample_svrow]
        none := by
  decide

/-- C3 as amended: for every failure in which the model call raises an
exception (timeouts, auth errors, malformed responses), generate_report
catches it locally and returns the fallback report, which carries the
variant digest and the expression digest verbatim as consecutive line
blocks, the line holding the textual cause of the error, and the fallback
provenance header; but a call that returns empty content is treated as
success and produces an LLM-tagged report without the digests.  The
hypothesis keeps the error text to a single line so that it is one line of
the report. -/
theorem c3_exception_fallback_contains_digests (e phenotypes : String)
    (variants : List Rdmr.SVRow) (expr : Option Rdmr.ExprTable)
    (he : '\n' ∉ e.data) :
    Rdmr.format_variant_summary_lines variants <:+:
        Rdmr.generate_report true (Except.error e) phenotypes variants expr ∧
    Rdmr.format_expression_summary_lines expr <:+:
        Rdmr.generate_report true (Except.error e) phenotypes variants expr ∧
    ("LLM call failed with error: " ++ e) ∈
        Rdmr.generate_report true (Except.error e) phenotypes variants expr ∧
    (Rdmr.generate_report true (Except.error e) phenotypes variants
        expr).head? =
      some "# Rare Disease Multi-Omics Report (LLM fallback)" := by
  have herr : Rdmr.splitSep '\n' ("LLM call failed with error: " ++ e) =
      ["LLM call failed with error: " ++ e] := by
    unfold Rdmr.splitSep
    rw [Rdmr.splitOnChar_of_not_mem '\n' _ ?_]
    · rfl
    · rw [String.data_append]
      intro hmem
      rcases List.mem_append.mp hmem with h | h
      · exact absurd h (by decide)
      · exact he h
  have hrep : Rdmr.generate_report true (Except.error e) phenotypes variants
      expr =
      ["# Rare Disease Multi-Omics Report (LLM fallback)", "", ""] ++
      Rdmr.splitSep '\n' ("LLM call failed with error: " ++ e) ++
      ["", "Below is a deterministic summary of the available data.", "",
        "## Phenotypes"] ++
      Rdmr.splitSep '\n' phenotypes ++
      ["", "## Variant summary"] ++
      Rdmr.format_variant_summary_lines variants ++
      ["", "## Expression summary"] ++
      Rdmr.format_expression_summary_lines expr ++ [""] := rfl
  refine ⟨?_, ?_, ?_, ?_⟩
  · refine ⟨["# Rare Disease Multi-Omics Report (LLM fallback)", "", ""] ++
      Rdmr.splitSep '\n' ("LLM call failed with error: " ++ e) ++
      ["", "Below is a deterministic summary of the available data.", "",
        "## Phenotypes"] ++
      Rdmr.splitSep '\n' phenotypes ++
      ["", "## Variant summary"],
      ["", "## Expression summary"] ++
      Rdmr.format_expression_summary_lines expr ++ [""], ?_⟩
    rw [hrep]
    simp [List.append_assoc]
  · refine ⟨["# Rare Disease Multi-Omics Report (LLM fallback)", "", ""] ++
      Rdmr.splitSep '\n' ("LLM call failed with error: " ++ e) ++
      ["", "Below is a deterministic summary of the available data.", "",
        "## Phenotypes"] ++
      Rdmr.splitSep '\n' phenotypes ++
      ["", "## Variant summary"] ++
      Rdmr.format_variant_summary_lines variants ++
      ["", "## Expression summary"], [""], ?_⟩
    rw [hrep]
  · rw [hrep, herr]
    simp
  · rw [hrep]
    rfl

/-- Witness for the amended C3 at a concrete failing call. -/
theorem c3_exception_fallback_contains_digests_witness :
    ('\n' ∉ ("connection timed out" : String).data) ∧
    (Rdmr.format_variant_summary_lines [sample_svrow] <:+:
        Rdmr.generate_report true (Except.error "connection timed out")
          "short stature" [sample_svrow] none ∧
    Rdmr.format_expression_summary_lines none <:+:
        Rdmr.generate_report true (Except.error "connection timed out")
          "short stature" [sample_svrow] none ∧
    ("LLM call failed with error: " ++ "connection timed out") ∈
        Rdmr.generate_report true (Except.error "connection timed out")
          "short stature" [sample_svrow] none ∧
    (Rdmr.generate_report true (Except.error "connection timed out")
        "short stature" [sample_svrow] none).head? =
      some "# Rare Disease Multi-Omics Report (LLM fallback)") :=
  ⟨by decide,
    c3_exception_fallback_contains_digests "connection timed out"
      "short stature" [sample_svrow] none (by decide)⟩

namespace Rdmr

/-! ### Aliasing model for score_variants (variant_scoring.py)

score_variants first copies its argument, then assigns the score column
in place on the copy, then rebinds the local name to the new frame that
sort_values returns.  To state that the caller's frame is never mutated,
the embedding makes the object store explicit: a heap maps object
identifiers to frame values, df.copy() allocates, the column assignment
updates the store at the bound identifier, and sort_values allocates its
result.
-/

/-- A typed row of the variants table as score_variants manipulates it;
score is None until the score column is assigned. -/
structure VRow where
  chrom : String
  pos : Int
  ref : String
  alt : String
  gene : String
  consequence : String
  af : ℚ
  score : Option ℚ
deriving DecidableEq, Repr

/-- A variants DataFrame value for the aliasing model. -/
def VFrame : Type := List VRow

/-- The store of live DataFrame objects: identifiers to values. -/
def Heap : Type := Nat → Option VFrame

/-- Store update at one identifier. -/
def heapUpdate (h : Heap) (i : Nat) (v : VFrame) : Heap :=
  fun j => if j = i then some v else h j

/-- The row with its score cell assigned, as df.apply(rule_based_score_row,
axis=1) computes it. -/
def withScore (r : VRow) : VRow :=
  ⟨r.chrom, r.pos, r.ref, r.alt, r.gene, r.consequence, r.af,
    some (rule_based_score_row r.consequence r.af)⟩

/-- The value score_variants returns, as a pure function of the input
frame: assign the score column, then sort by score descending through
the sort_values model. -/
def score_variants (df : VFrame) : VFrame :=
  pandas_sort_values (fun r => Option.getD r.score 0) false
    (df.map withScore)

/-- Embedding of score_variants over the explicit object store.  Takes the
store, the next fresh identifier and the identifier of the argument frame;
returns the store after the call, the identifier of the returned frame and
the next fresh identifier.  Line by line: df = df.copy() allocates a copy;
df["score"] = df.apply(...) mutates the object bound to df, which is the
copy; df = df.sort_values(...).reset_index(drop=True) binds df to the new
frame sort_values returns, modelled as a fresh allocation. -/
def score_variants_prog (h : Heap) (next dfId : Nat) : Heap × Nat × Nat :=
  let v0 := (h dfId).getD []
  let copyId := next
  let h1 := heapUpdate h copyId v0
  let v1 := ((h1 copyId).getD []).map withScore
  let h2 := heapUpdate h1 copyId v1
  let v2 := pandas_sort_values (fun r => Option.getD r.score 0) false
    ((h2 copyId).getD [])
  let outId := next + 1
  let h3 := heapUpdate h2 outId v2
  (h3, outId, next + 2)

end Rdmr

/-- C10: score_variants never mutates its argument.  For every store, every
live argument frame (its identifier below the allocation frontier), the
store after running score_variants still binds the argument identifier to
the unchanged frame, and the returned identifier is a fresh object holding
the scored, sorted copy. -/
theorem c10_score_variants_input_unchanged (h : Rdmr.Heap) (next dfId : Nat)
    (df : Rdmr.VFrame) (hbound : h dfId = some df) (hfresh : dfId < next) :
    (Rdmr.score_variants_prog h next dfId).1 dfId = some df ∧
    (Rdmr.score_variants_prog h next dfId).1
        (Rdmr.score_variants_prog h next dfId).2.1 =
      some (Rdmr.score_variants df) := by
  have h1 : dfId ≠ next := Nat.ne_of_lt hfresh
  have h2 : dfId ≠ next + 1 := by omega
  constructor
  · show Rdmr.heapUpdate _ (next + 1) _ dfId = some df
    unfold Rdmr.heapUpdate
    rw [if_neg h2, if_neg h1, if_neg h1]
    exact hbound
  · show Rdmr.heapUpdate _ (next + 1) _ (next + 1) = _
    unfold Rdmr.heapUpdate
    rw [if_pos rfl]
    unfold Rdmr.score_variants
    rw [if_pos rfl, if_pos rfl, hbound]
    simp

/-- A concrete unscored variant row. -/
def sample_vrow : Rdmr.VRow :=
  ⟨"1", 123456, "A", "G", "BRCA1", "missense_variant", 1/10000, none⟩

/-- A concrete store with one live frame at identifier 0. -/
def sample_heap : Rdmr.Heap :=
  fun i => if i = 0 then some [sample_vrow] else none

/-- Witness for C10 at the concrete one-object store. -/
theorem c10_score_variants_input_unchanged_witness :
    (sample_heap 0 = some [sample_vrow] ∧ 0 < 1) ∧
    ((Rdmr.score_variants_prog sample_heap 1 0).1 0 = some [sample_vrow] ∧
    (Rdmr.score_variants_prog sample_heap 1 0).1
        (Rdmr.score_variants_prog sample_heap 1 0).2.1 =
      some (Rdmr.score_variants [sample_vrow])) :=
  ⟨⟨rfl, by decide⟩,
    c10_score_variants_input_unchanged sample_heap 1 0 [sample_vrow] rfl
      (by decide)⟩

namespace Rdmr

/-! ### Supporting facts about the sort model

These record the half of the ordering contract of score_variants that does
not depend on the behavior of ties: under the sort_values model the output
is a permutation of the scored rows and is sorted by score descending.
The input-order tie-break asserted by the spec is exactly the stability of
the underlying argsort kind, which the pandas default, numpy quicksort,
does not guarantee; no theorem here speaks to tie order.
-/

theorem perm_insertByKey (key : α → ℚ) (a : α) (l : List α) :
    List.Perm (insertByKey key a l) (a :: l) := by
  induction l with
  | nil => rfl
  | cons b bs ih =>
    unfold insertByKey
    split_ifs
    · rfl
    · exact List.Perm.trans (List.Perm.cons b ih) (List.Perm.swap a b bs)

theorem perm_stableSortAsc (key : α → ℚ) (l : List α) :
    List.Perm (stableSortAsc key l) l := by
  induction l with
  | nil => rfl
  | cons a as ih =>
    exact List.Perm.trans (perm_insertByKey key a _) (List.Perm.cons a ih)

theorem pairwise_insertByKey (key : α → ℚ) (a : α) (l : List α)
    (h : l.Pairwise (fun x y => key x ≤ key y)) :
    (insertByKey key a l).Pairwise (fun x y => key x ≤ key y) := by
  induction l with
  | nil => simp [insertByKey]
  | cons b bs ih =>
    rw [List.pairwise_cons] at h
    unfold insertByKey
    split_ifs with hle
    · rw [List.pairwise_cons]
      refine ⟨?_, List.pairwise_cons.mpr h⟩
      intro x hx
      rcases List.mem_cons.mp hx with rfl | hxs
      · exact hle
      · exact le_trans hle (h.1 x hxs)
    · rw [List.pairwise_cons]
      refine ⟨?_, ih h.2⟩
      intro x hx
      have hx' : x ∈ a :: bs := (perm_insertByKey key a bs).mem_iff.mp hx
      rcases List.mem_cons.mp hx' with rfl | hxs
      · exact le_of_not_le hle
      · exact h.1 x hxs

theorem pairwise_stableSortAsc (key : α → ℚ) (l : List α) :
    (stableSortAsc key l).Pairwise (fun x y => key x ≤ key y) := by
  induction l with
  | nil => simp [stableSortAsc]
  | cons a as ih => exact pairwise_insertByKey key a _ ih

/-- The descending sort model returns a permutation of its input, sorted
by the key in non-increasing order. -/
theorem pandas_sort_values_desc (key : α → ℚ) (l : List α) :
    List.Perm (pandas_sort_values key false l) l ∧
    (pandas_sort_values key false l).Pairwise
      (fun x y => key y ≤ key x) := by
  constructor
  · exact List.Perm.trans (List.reverse_perm _)
      (List.Perm.trans (perm_stableSortAsc key _) (List.reverse_perm l))
  · show ((stableSortAsc key l.reverse).reverse).Pairwise (fun x y => key y ≤ key x)
    rw [List.pairwise_reverse]
    exact pairwise_stableSortAsc key l.reverse

/-- score_variants returns the scored rows, sorted by score descending. -/
theorem score_variants_sorted_desc (df : VFrame) :
    List.Perm (score_variants df) (df.map withScore) ∧
    (score_variants df).Pairwise
      (fun a b => Option.getD b.score 0 ≤ Option.getD a.score 0) := by
  unfold score_variants
  exact pandas_sort_values_desc (fun r => Option.getD r.score 0) (df.map withScore)

end Rdmr
